import Mathlib

/-!
Shallow embedding of the ticker-analysis pipeline of the Stockly backend
(`server.js` and its second source variant), covering:

* `analyzeNewsSentiment` — keyword-weighted news sentiment scoring,
* the equity and crypto interest scorers (percent-change ladder + news bonus),
* insider-filing transaction-type and role inference,
* the social-sentiment (StockTwits) slice,
* the news fetch flow (domain-restricted query with optional broader fallback,
  relevance filter, 3-item cap),
* the numbered-section parser for language-model output, including its
  positional-split fallback.

Strings are modelled as `List Char`; JavaScript `String.prototype.includes`
becomes substring containment, `toLowerCase` the ASCII `Char.toLower`
(all inputs of interest are ASCII), and `Math.round` the half-up rounding
`jsRound`.  Network reads are modelled as explicit inputs: each fetch
function takes the possibly absent response of the provider as an argument.
-/

/-- JavaScript whitespace class `\s`, restricted to its ASCII members,
which is all the source text uses. -/
def isWSChar (c : Char) : Bool :=
  c = ' ' || c = '\t' || c = '\n' || c = '\r' || c = '\x0b' || c = '\x0c'

/-- Regex class `\d`. -/
def isDigitChar (c : Char) : Bool :=
  '0' ≤ c && c ≤ '9'

/-- Regex class `[A-Z]`. -/
def isUpperChar (c : Char) : Bool :=
  'A' ≤ c && c ≤ 'Z'

/-- Regex class `[A-Z\s]` used by the section-title pattern. -/
def isTitleClassChar (c : Char) : Bool :=
  isUpperChar c || isWSChar c

/-- JavaScript `s.includes(pat)`: `pat` occurs as a contiguous substring
of `s` (the empty pattern always occurs). -/
def hasSub (s pat : List Char) : Bool :=
  match s with
  | [] => pat.isEmpty
  | _ :: t => pat.isPrefixOf s || hasSub t pat

/-- JavaScript `s.trim()`: remove leading and trailing whitespace. -/
def trimWS (cs : List Char) : List Char :=
  ((cs.dropWhile isWSChar).reverse.dropWhile isWSChar).reverse

/-- ASCII lower-casing of a string, modelling `s.toLowerCase()`. -/
def lowerStr (cs : List Char) : List Char :=
  cs.map Char.toLower

/-- JavaScript `s.split(' ')`: split on each single space character,
keeping empty pieces. -/
def splitOnSpace (cs : List Char) : List (List Char) :=
  cs.foldr
    (fun c acc =>
      match acc with
      | [] => if c = ' ' then [[], []] else [[c]]
      | h :: t => if c = ' ' then [] :: h :: t else (c :: h) :: t)
    [[]]

/-- JavaScript `Math.round`: round half away from zero toward plus
infinity, i.e. `⌊x + 1/2⌋`. -/
def jsRound (q : ℚ) : ℤ :=
  ⌊q + 1 / 2⌋

/-- The score clamp `Math.max(0, Math.min(100, x))` on integers. -/
def clampInt (x : ℤ) : ℤ :=
  max 0 (min 100 x)

/-- The score clamp `Math.max(0, Math.min(100, x))` on rationals
(used by `analyzeNewsSentiment`, which clamps before rounding). -/
def clampQ (x : ℚ) : ℚ :=
  max 0 (min 100 x)

/-- A raw news article as consumed by the pipeline: `title` plus the
optional `description` (absent models a null/undefined field; the code
reads it as `article.description || ""`). -/
structure Article where
  title : List Char
  description : Option (List Char)
deriving DecidableEq

/-- Result record of `analyzeNewsSentiment`. -/
structure SentimentResult where
  score : ℤ
  label : List Char
  color : List Char
deriving DecidableEq

/-- Strong-positive wordlist of `analyzeNewsSentiment` (weight +15). -/
def strongPositive : List (List Char) :=
  ["surge", "soar", "jump", "rally", "beat", "exceed", "upgrade",
   "breakthrough", "record", "best"].map String.toList

/-- Moderate-positive wordlist (weight +5). -/
def moderatePositive : List (List Char) :=
  ["growth", "gain", "rise", "up", "profit", "strong", "increase",
   "positive", "success", "improve"].map String.toList

/-- Strong-negative wordlist (weight −15). -/
def strongNegative : List (List Char) :=
  ["plunge", "crash", "collapse", "miss", "downgrade", "loss", "worst",
   "fail", "cut"].map String.toList

/-- Moderate-negative wordlist (weight −5). -/
def moderateNegative : List (List Char) :=
  ["fall", "drop", "decline", "down", "weak", "concern", "risk",
   "struggle", "pressure"].map String.toList

/-- The `forEach` accumulation `words.forEach(w => { if (text.includes(w))
score += wt })`: each listed word contributes its weight once iff it occurs
in the text, regardless of how many occurrences it has. -/
def sumWeighted (text : List Char) (ws : List (List Char)) (wt : ℤ) : ℤ :=
  ws.foldl (fun acc w => if hasSub text w then acc + wt else acc) 0

/-- The sentiment-accumulator contribution of one ticker-matching article:
the four weighted wordlist passes of `analyzeNewsSentiment`. -/
def articleSentimentDelta (text : List Char) : ℤ :=
  sumWeighted text strongPositive 15 + sumWeighted text strongNegative (-15)
    + sumWeighted text moderatePositive 5 + sumWeighted text moderateNegative (-5)

/-- The lowercased text of an article:
`(article.title + " " + (article.description || "")).toLowerCase()`. -/
def articleText (a : Article) : List Char :=
  lowerStr (a.title ++ ' ' :: a.description.getD [])

/-- Label/color thresholds of `analyzeNewsSentiment`, applied to the
clamped (but not yet rounded) score. -/
def sentimentLabelColor (score : ℚ) : List Char × List Char :=
  if score ≥ 70 then ("Positive".toList, "#10b981".toList)
  else if score ≥ 60 then ("Slightly Positive".toList, "#3b82f6".toList)
  else if score ≥ 55 then ("Neutral-Positive".toList, "#6b7280".toList)
  else if score ≥ 45 then ("Neutral".toList, "#6b7280".toList)
  else if score ≥ 40 then ("Neutral-Negative".toList, "#f59e0b".toList)
  else if score ≥ 30 then ("Slightly Negative".toList, "#f59e0b".toList)
  else ("Negative".toList, "#ef4444".toList)

/-- The `sentimentScore` accumulator of `analyzeNewsSentiment`: articles
whose text contains the lowercased ticker contribute their four weighted
wordlist passes, others contribute nothing. -/
def sentimentAccum (news : List Article) (tick : List Char) : ℤ :=
  news.foldl
    (fun acc a =>
      let text := articleText a
      if hasSub text tick then acc + articleSentimentDelta text else acc) 0

/-- The `relevanceScore` accumulator of `analyzeNewsSentiment`:
+20 per ticker-matching article, −10 per non-matching article. -/
def relevanceAccum (news : List Article) (tick : List Char) : ℤ :=
  news.foldl
    (fun acc a => if hasSub (articleText a) tick then acc + 20 else acc - 10) 0

/-- The `analyzeNewsSentiment(news, ticker)` utility (identical in both
source variants).  Empty news returns the neutral record.  Otherwise the
final score is
`Math.round(Math.max(0, Math.min(100, 50 + sentiment + relevance / n)))`,
with the label read off the clamped pre-rounding value. -/
def analyzeNewsSentiment (news : List Article) (ticker : List Char) :
    SentimentResult :=
  if news.isEmpty then ⟨50, "Neutral".toList, "#6b7280".toList⟩
  else
    let tick := lowerStr ticker
    let score : ℚ := clampQ (50 + (sentimentAccum news tick : ℚ)
      + (relevanceAccum news tick : ℚ) / (news.length : ℚ))
    let lc := sentimentLabelColor score
    ⟨jsRound score, lc.1, lc.2⟩

/-- Equity percent-change ladder of the `/analyze` handler
(8 bands, steps +20 … −20). -/
def equityLadder (pct : ℚ) : ℤ :=
  if pct > 10 then 20
  else if pct > 5 then 15
  else if pct > 2 then 10
  else if pct > 0 then 5
  else if pct > -2 then -5
  else if pct > -5 then -10
  else if pct > -10 then -15
  else -20

/-- Crypto percent-change ladder of `handleCryptoAnalysis`
(10 bands, steps +25 … −25). -/
def cryptoLadder (pct : ℚ) : ℤ :=
  if pct > 20 then 25
  else if pct > 10 then 20
  else if pct > 5 then 15
  else if pct > 2 then 10
  else if pct > 0 then 5
  else if pct > -2 then -5
  else if pct > -5 then -10
  else if pct > -10 then -15
  else if pct > -20 then -20
  else -25

/-- News-volume bonus shared by both interest scorers:
+15 for ≥3 articles, +10 for ≥2, +5 for ≥1, else 0. -/
def newsVolumeBonus (n : ℕ) : ℤ :=
  if n ≥ 3 then 15 else if n ≥ 2 then 10 else if n ≥ 1 then 5 else 0

/-- Equity interest score of the `/analyze` handler: `changePct` is the
parsed percent change when the quote fetch succeeded (`const pct =
changePct ? parseFloat(changePct) : 0` substitutes 0 when absent); adds
the ladder step, the news bonus and the fractional sentiment adjustment
`(sentiment.score - 50) / 5`, then rounds and clamps. -/
def equityInterestScore (changePct : Option ℚ) (newsCount : ℕ)
    (sentimentScore : ℤ) : ℤ :=
  let pct := changePct.getD 0
  clampInt (jsRound ((50 : ℚ) + (equityLadder pct : ℚ)
    + (newsVolumeBonus newsCount : ℚ) + ((sentimentScore : ℚ) - 50) / 5))

/-- Crypto interest score of `handleCryptoAnalysis`: ladder plus news
bonus from base 50, rounded and clamped; no sentiment adjustment. -/
def cryptoInterestScore (changePct : Option ℚ) (newsCount : ℕ) : ℤ :=
  let pct := changePct.getD 0
  clampInt (jsRound ((50 : ℚ) + (cryptoLadder pct : ℚ)
    + (newsVolumeBonus newsCount : ℚ)))

/-- Inferred transaction type of an insider (Form 4) filing. -/
inductive TxType
  | SELL
  | BUY
  | OTHER
deriving DecidableEq

/-- Sale-indicating tokens of the insider filter. -/
def saleTokens : List (List Char) :=
  ["sale", "sell", "disposed"].map String.toList

/-- Purchase-indicating tokens of the insider filter. -/
def purchaseTokens : List (List Char) :=
  ["purchase", "buy", "acquired"].map String.toList

/-- The `isSale` test of the `/analyze` handler: the lowercased filing
title contains some sale-indicating token. -/
def titleIsSale (title : List Char) : Bool :=
  saleTokens.any (fun t => hasSub (lowerStr title) t)

/-- The `isPurchase` test: the lowercased filing title contains some
purchase-indicating token. -/
def titleIsPurchase (title : List Char) : Bool :=
  purchaseTokens.any (fun t => hasSub (lowerStr title) t)

/-- Transaction-type inference
`isSale ? "SELL" : isPurchase ? "BUY" : "OTHER"`: the sale test is asked
first and wins outright whenever it matches. -/
def inferTxType (title : List Char) : TxType :=
  if titleIsSale title then TxType.SELL
  else if titleIsPurchase title then TxType.BUY
  else TxType.OTHER

/-- Officer-role inference from the filing title, first matching keyword
in fixed priority order, defaulting to "Insider". -/
def inferRole (title : List Char) : List Char :=
  let t := lowerStr title
  if hasSub t "ceo".toList || hasSub t "chief executive".toList then "CEO".toList
  else if hasSub t "cfo".toList || hasSub t "chief financial".toList then "CFO".toList
  else if hasSub t "coo".toList || hasSub t "chief operating".toList then "COO".toList
  else if hasSub t "director".toList then "Director".toList
  else if hasSub t "president".toList then "President".toList
  else if hasSub t "officer".toList then "Officer".toList
  else "Insider".toList

/-- One StockTwits message as the pipeline reads it: the value of
`msg.entities.sentiment.basic` when the entities/sentiment objects are
present, else `none`. -/
structure StMessage where
  sentiment : Option (List Char)
deriving DecidableEq

/-- The social-sentiment record the handler builds (the constant
`source: "StockTwits"` field is omitted). -/
structure SocialSnapshot where
  bullishPct : ℤ
  bearishPct : ℤ
  volume : ℕ
  sentiment : List Char
deriving DecidableEq

/-- Label attached to bullish messages. -/
def bullishLabel : List Char := "Bullish".toList

/-- Label attached to bearish messages. -/
def bearishLabel : List Char := "Bearish".toList

/-- The social-sentiment computation over a present `messages` array:
take the 20 most recent messages, count the Bullish and Bearish labels,
and set `bullishPct = Math.round(bullish / (bullish + bearish) * 100)`
when at least one labeled message exists, else the default 50. -/
def socialFromMessages (msgs : List StMessage) : SocialSnapshot :=
  let messages := msgs.take 20
  let bullishCount : ℕ := messages.countP (fun m => m.sentiment == some bullishLabel)
  let bearishCount : ℕ := messages.countP (fun m => m.sentiment == some bearishLabel)
  let total := bullishCount + bearishCount
  let bullishPct : ℤ :=
    if 0 < total then jsRound ((bullishCount : ℚ) / (total : ℚ) * 100) else 50
  ⟨bullishPct, 100 - bullishPct, messages.length,
    if bullishPct > 60 then bullishLabel
    else if bullishPct < 40 then bearishLabel
    else "Neutral".toList⟩

/-- The social-sentiment slice of the signal bundle.  The input is
`none` when the StockTwits fetch threw or the payload had no `messages`
field (`if (stocktwitsData && stocktwitsData.messages)`); any present
messages array, labeled or not, yields a populated snapshot. -/
def socialSentimentSlice (resp : Option (List StMessage)) : Option SocialSnapshot :=
  resp.map socialFromMessages

/-- The two news queries a handler can issue: the domain-restricted
primary query, and the broader keyword query with no domain restriction. -/
inductive NewsQuery
  | domainRestricted
  | broadKeyword
deriving DecidableEq

/-- JavaScript truthiness of `d.articles?.length`: the response must be
present and its article list non-empty. -/
def respHasArticles : Option (List Article) → Bool
  | none => false
  | some a => !a.isEmpty

/-- Finance-keyword set of the equity relevance filter. -/
def stockKeywords : List (List Char) :=
  ["stock", "shares", "trading", "investor", "market", "price", "earnings",
   "revenue", "quarter", "analyst", "upgrade", "downgrade", "wall street",
   "profit", "loss"].map String.toList

/-- The equity relevance filter: the lowercased title mentions the ticker
or some >3-character token of the company name, and the title+description
contains at least one finance keyword. -/
def isRelevantArticle (ticker companyName : List Char) (a : Article) : Bool :=
  let title := lowerStr a.title
  let descr := lowerStr (a.description.getD [])
  let fullText := title ++ ' ' :: descr
  let mentionsCompany := hasSub title (lowerStr ticker)
    || (splitOnSpace (lowerStr companyName)).any
        (fun word => decide (3 < word.length) && hasSub title (lowerStr word))
  let hasStockKeywords := stockKeywords.any (fun k => hasSub fullText k)
  mentionsCompany && hasStockKeywords

/-- The equity news fetch flow of the `/analyze` handler: issue the
domain-restricted query; when it yields no articles
(`if (!d.articles?.length)`) issue the broader keyword fallback query;
then keep the first 3 relevance-filtered articles of whatever response is
in hand.  The provider argument maps each query to its (possibly absent)
article list; the returned first component lists the queries issued in
order. -/
def equityFetchNews (provider : NewsQuery → Option (List Article))
    (ticker companyName : List Char) : List NewsQuery × List Article :=
  let d1 := provider NewsQuery.domainRestricted
  let qd :=
    if respHasArticles d1 then ([NewsQuery.domainRestricted], d1)
    else ([NewsQuery.domainRestricted, NewsQuery.broadKeyword],
      provider NewsQuery.broadKeyword)
  if respHasArticles qd.2 then
    (qd.1, ((qd.2.getD []).filter (isRelevantArticle ticker companyName)).take 3)
  else (qd.1, [])

/-- The crypto news fetch flow of `handleCryptoAnalysis`: a single
domain-restricted query with no fallback, then the first 3 articles. -/
def cryptoFetchNews (provider : NewsQuery → Option (List Article)) :
    List NewsQuery × List Article :=
  let d := provider NewsQuery.domainRestricted
  if respHasArticles d then ([NewsQuery.domainRestricted], (d.getD []).take 3)
  else ([NewsQuery.domainRestricted], [])

/-- Backtracking match of the section-title pattern `\d+\.\s+[A-Z\s]+\n`
at the head of the input: a maximal digit run, a literal dot, then a
greedy split of the following characters into non-empty whitespace `w`,
non-empty `[A-Z\s]` run `t` and a terminating newline, preferring longer
`w` and, within that, longer `t`, exactly as a backtracking regex engine
does.  Returns the capture-group text (everything matched except the
final newline) and the remainder after the newline. -/
def matchTitleAt (cs : List Char) : Option (List Char × List Char) :=
  let ds := cs.takeWhile isDigitChar
  if ds.isEmpty then none
  else
    match cs.drop ds.length with
    | '.' :: r2 =>
      let wMax := (r2.takeWhile isWSChar).length
      (List.range wMax).findSome? (fun i =>
        let wlen := wMax - i
        let r3 := r2.drop wlen
        let tMax := (r3.takeWhile isTitleClassChar).length
        (List.range tMax).findSome? (fun j =>
          let tlen := tMax - j
          match r3.drop tlen with
          | '\n' :: rest =>
            some (ds ++ '.' :: (r2.take wlen ++ r3.take tlen), rest)
          | _ => none))
    | _ => none

/-- The zero-width lookahead `(?=\d+\.\s+[A-Z\s]+)` that ends a lazily
matched section body: a digit run, a dot, then at least one whitespace
character followed by at least one `[A-Z\s]` character. -/
def lookaheadTitle (cs : List Char) : Bool :=
  let ds := cs.takeWhile isDigitChar
  !ds.isEmpty &&
    match cs.drop ds.length with
    | '.' :: c1 :: c2 :: _ => isWSChar c1 && isTitleClassChar c2
    | _ => false

/-- The lazy body `([\s\S]*?)(?=\d+\.\s+[A-Z\s]+|$)`: the shortest
prefix after which the title lookahead holds or the input ends. -/
def takeBody : List Char → List Char × List Char
  | [] => ([], [])
  | c :: cs =>
    if lookaheadTitle (c :: cs) then ([], c :: cs)
    else
      let br := takeBody cs
      (c :: br.1, br.2)

/-- Scan for the leftmost position at which the full section pattern
matches (the pattern matches at a position iff its title part does, since
the lazy body may always run to the end of the input), returning the
capture group, the body, and the remainder at which the global regex
resumes. -/
def findFirstSectionFrom : List Char → Option (List Char × List Char × List Char)
  | [] => none
  | c :: cs =>
    match matchTitleAt (c :: cs) with
    | some (g, r) =>
      let br := takeBody r
      some (g, br.1, br.2)
    | none => findFirstSectionFrom cs

/-- Strip of the leading `\d+\.\s+` tag from an (already trimmed) title,
modelling `.replace(/^\d+\.\s+/, "")`; the title is returned unchanged
when the pattern does not match at the start. -/
def stripNumberTag (cs : List Char) : List Char :=
  let ds := cs.takeWhile isDigitChar
  if ds.isEmpty then cs
  else
    match cs.drop ds.length with
    | '.' :: r2 =>
      if (r2.takeWhile isWSChar).isEmpty then cs else r2.dropWhile isWSChar
    | _ => cs

/-- The `while ((match = sectionRegex.exec(text)) !== null)` loop: each
match contributes `(match[1].trim().replace(/^\d+\.\s+/, ""),
match[2].trim())` and scanning resumes after the consumed match.  Fuel is
the input length; every match consumes at least one character, so the
fuel never runs out on the initial call. -/
def findSectionsAux : ℕ → List Char → List (List Char × List Char)
  | 0, _ => []
  | fuel + 1, cs =>
    match findFirstSectionFrom cs with
    | none => []
    | some (g, b, rest) =>
      (stripNumberTag (trimWS g), trimWS b) :: findSectionsAux fuel rest

/-- All `(title, content)` pairs the section regex extracts from a text. -/
def sectionMatches (cs : List Char) : List (List Char × List Char) :=
  findSectionsAux (cs.length + 1) cs

/-- Match of the split pattern `\d+\.\s+` at the head of the input,
returning the remainder after the (greedy) match. -/
def matchNumberAt (cs : List Char) : Option (List Char) :=
  let ds := cs.takeWhile isDigitChar
  if ds.isEmpty then none
  else
    match cs.drop ds.length with
    | '.' :: r2 =>
      if (r2.takeWhile isWSChar).isEmpty then none
      else some (r2.dropWhile isWSChar)
    | _ => none

/-- Leftmost occurrence of the split pattern: the piece before the match
and the remainder after it. -/
def findNumberSplit : List Char → Option (List Char × List Char)
  | [] => none
  | c :: cs =>
    match matchNumberAt (c :: cs) with
    | some rest => some ([], rest)
    | none =>
      match findNumberSplit cs with
      | some pr => some (c :: pr.1, pr.2)
      | none => none

/-- The repeated-split loop of `text.split(/\d+\.\s+/)`; fuel as in
`findSectionsAux`. -/
def splitNumberAux : ℕ → List Char → List (List Char)
  | 0, cs => [cs]
  | fuel + 1, cs =>
    match findNumberSplit cs with
    | none => [cs]
    | some (pre, rest) => pre :: splitNumberAux fuel rest

/-- JavaScript `text.split(/\d+\.\s+/)`. -/
def splitNumber (cs : List Char) : List (List Char) :=
  splitNumberAux (cs.length + 1) cs

/-- The fallback parts `text.split(/\d+\.\s+/).filter(s => s.trim())`:
pieces that are non-empty after trimming (JavaScript keeps a piece iff
its trim is a non-empty, hence truthy, string). -/
def cleanParts (cs : List Char) : List (List Char) :=
  (splitNumber cs).filter (fun p => !(trimWS p).isEmpty)

/-- Fixed title list of the crypto (and equity single-mode) prompt. -/
def cryptoExpectedTitles : List (List Char) :=
  ["MARKET CONTEXT", "KEY WATCHPOINTS", "RISK CONSIDERATIONS",
   "RESEARCH CHECKLIST"].map String.toList

/-- Fixed title list of the simplified equity prompt. -/
def simplifiedExpectedTitles : List (List Char) :=
  ["WHAT THEY DO", "GOOD SIGNS", "WARNING SIGNS"].map String.toList

/-- Fixed title list of the detailed equity prompt. -/
def detailedExpectedTitles : List (List Char) :=
  ["BUSINESS MODEL", "KEY RESEARCH QUESTIONS", "RISK FACTORS"].map String.toList

/-- The shared shape of the three section parsers: regex extraction
first; if it finds nothing, split the raw text on the numeric-prefix
pattern and, when at least as many non-empty parts as expected titles
exist, zip the titles positionally over the parts; otherwise the section
list stays empty. -/
def parseSectionsWith (titles : List (List Char)) (text : List Char) :
    List (List Char × List Char) :=
  let sections := sectionMatches text
  if sections.isEmpty then
    let parts := cleanParts text
    if titles.length ≤ parts.length then titles.zip parts else []
  else sections

/-- The inline section parsing of `handleCryptoAnalysis`
(4 expected titles). -/
def cryptoParseSections (text : List Char) : List (List Char × List Char) :=
  parseSectionsWith cryptoExpectedTitles text

/-- The `parseSimplifiedSections` helper of the equity dual-mode handler
(3 expected titles). -/
def parseSimplifiedSections (text : List Char) : List (List Char × List Char) :=
  parseSectionsWith simplifiedExpectedTitles text

/-- The `parseDetailedSections` helper of the equity dual-mode handler
(3 expected titles). -/
def parseDetailedSections (text : List Char) : List (List Char × List Char) :=
  parseSectionsWith detailedExpectedTitles text

/-- The integer clamp keeps every value inside `[0, 100]`. -/
theorem clampInt_bounds (x : ℤ) : 0 ≤ clampInt x ∧ clampInt x ≤ 100 := by
  unfold clampInt
  omega

/-- Half-up rounding of a rational already clamped to `[0, 100]` lands in
`[0, 100]`. -/
theorem jsRound_clampQ_bounds (q : ℚ) :
    0 ≤ jsRound (clampQ q) ∧ jsRound (clampQ q) ≤ 100 := by
  have h0 : (0 : ℚ) ≤ clampQ q := le_max_left 0 _
  have h1 : clampQ q ≤ 100 := max_le (by norm_num) (min_le_left _ _)
  unfold jsRound
  constructor
  · exact Int.le_floor.mpr (by push_cast; linarith)
  · have h2 : ⌊clampQ q + 1 / 2⌋ < 101 := Int.floor_lt.mpr (by push_cast; linarith)
    omega

/-- Congruence of the weighted wordlist pass: the accumulated weight
depends only on which listed words occur, not on how often they occur. -/
theorem sumWeighted_congr (t1 t2 : List Char) (wt : ℤ) :
    ∀ (ws : List (List Char)), (∀ w ∈ ws, hasSub t1 w = hasSub t2 w) →
      sumWeighted t1 ws wt = sumWeighted t2 ws wt := by
  have aux : ∀ (ws : List (List Char)) (acc : ℤ),
      (∀ w ∈ ws, hasSub t1 w = hasSub t2 w) →
      ws.foldl (fun acc w => if hasSub t1 w then acc + wt else acc) acc
        = ws.foldl (fun acc w => if hasSub t2 w then acc + wt else acc) acc := by
    intro ws
    induction ws with
    | nil => intro acc _; rfl
    | cons w ws ih =>
      intro acc h
      simp only [List.foldl_cons, h w (List.mem_cons_self w ws)]
      exact ih _ fun v hv => h v (List.mem_cons_of_mem w hv)
  intro ws h
  exact aux ws 0 h

/-- C5 — for every percent-change value (present or absent), news count,
sentiment score, news list and ticker string, the equity interest scorer,
the crypto interest scorer and `analyzeNewsSentiment` all return values
in `[0, 100]`; integrality holds by construction since each result is an
`ℤ` produced by `Math.round`. -/
theorem c5_score_bounds (changePct : Option ℚ) (newsCount : ℕ)
    (sentimentScore : ℤ) (news : List Article) (ticker : List Char) :
    (0 ≤ equityInterestScore changePct newsCount sentimentScore
      ∧ equityInterestScore changePct newsCount sentimentScore ≤ 100)
    ∧ (0 ≤ cryptoInterestScore changePct newsCount
      ∧ cryptoInterestScore changePct newsCount ≤ 100)
    ∧ (0 ≤ (analyzeNewsSentiment news ticker).score
      ∧ (analyzeNewsSentiment news ticker).score ≤ 100) := by
  refine ⟨?_, ?_, ?_⟩
  · simp only [equityInterestScore]
    exact clampInt_bounds _
  · simp only [cryptoInterestScore]
    exact clampInt_bounds _
  · simp only [analyzeNewsSentiment]
    split
    · constructor <;> norm_num
    · exact jsRound_clampQ_bounds _

/-- C6 — the equity interest scorer at percent change 12, two news items
and sentiment score 70 returns exactly 84 (base 50, +20 ladder band, +10
news bonus, +4 sentiment adjustment, rounded and clamped at the end). -/
theorem c6_equity_interest_scenario :
    equityInterestScore (some 12) 2 70 = 84 := by
  norm_num [equityInterestScore, equityLadder, newsVolumeBonus, clampInt, jsRound]

/-- C10 — when the percent change is absent both scorers substitute 0,
which falls in the `(−2, 0]` ladder band and subtracts 5, so a request
with no quote data and no news scores 45 (the empty news list gives the
neutral sentiment 50, a zero adjustment on the equity path), not 50. -/
theorem c10_absent_change_scores_45 (ticker : List Char) :
    equityInterestScore none 0 ((analyzeNewsSentiment [] ticker).score) = 45
    ∧ cryptoInterestScore none 0 = 45 := by
  have h : analyzeNewsSentiment [] ticker = ⟨50, "Neutral".toList, "#6b7280".toList⟩ := rfl
  rw [h]
  constructor
  · norm_num [equityInterestScore, equityLadder, newsVolumeBonus, clampInt, jsRound]
  · norm_num [cryptoInterestScore, cryptoLadder, newsVolumeBonus, clampInt, jsRound]

/-- C1 (counterexample) — for the news item titled "Apple surges on
strong earnings beat" with empty description, scored with ticker "AAPL",
`analyzeNewsSentiment` does not return 100/"Positive": the lowercased
text contains "apple" but not the substring "aapl", so the ticker test
fails, no sentiment keywords are counted, and relevance is −10. -/
theorem c1_counterexample :
    (analyzeNewsSentiment [⟨"Apple surges on strong earnings beat".toList, some []⟩]
      "AAPL".toList).score ≠ 100
    ∧ (analyzeNewsSentiment [⟨"Apple surges on strong earnings beat".toList, some []⟩]
      "AAPL".toList).label ≠ "Positive".toList := by
  have hs : sentimentAccum [⟨"Apple surges on strong earnings beat".toList, some []⟩]
      (lowerStr "AAPL".toList) = 0 := by decide
  have hr : relevanceAccum [⟨"Apple surges on strong earnings beat".toList, some []⟩]
      (lowerStr "AAPL".toList) = -10 := by decide
  have h : (analyzeNewsSentiment
      [⟨"Apple surges on strong earnings beat".toList, some []⟩] "AAPL".toList)
      = ⟨40, "Neutral-Negative".toList, "#f59e0b".toList⟩ := by
    simp only [analyzeNewsSentiment, List.isEmpty_cons, hs, hr, List.length_cons,
      List.length_nil]
    norm_num [clampQ, jsRound, sentimentLabelColor]
  rw [h]
  refine ⟨by norm_num, ?_⟩
  decide

/-- C1 (amended) — on the stated input the text lacks the ticker
substring "aapl", so the article scores relevance −10 with no keyword
hits and the result is 40/"Neutral-Negative"; for the ticker-matching
variant title "AAPL surges on strong earnings beat" the accumulator is
+35 (strong-positive "surge" and "beat" at +15 each plus
moderate-positive "strong" at +5) and relevance +20, so
`clamp(50 + 35 + 20/1)` = 100 with label "Positive". -/
theorem c1_amended :
    (analyzeNewsSentiment [⟨"Apple surges on strong earnings beat".toList, some []⟩]
      "AAPL".toList) = ⟨40, "Neutral-Negative".toList, "#f59e0b".toList⟩
    ∧ sentimentAccum [⟨"AAPL surges on strong earnings beat".toList, some []⟩]
      (lowerStr "AAPL".toList) = 35
    ∧ relevanceAccum [⟨"AAPL surges on strong earnings beat".toList, some []⟩]
      (lowerStr "AAPL".toList) = 20
    ∧ (analyzeNewsSentiment [⟨"AAPL surges on strong earnings beat".toList, some []⟩]
      "AAPL".toList) = ⟨100, "Positive".toList, "#10b981".toList⟩ := by
  have hs : sentimentAccum [⟨"Apple surges on strong earnings beat".toList, some []⟩]
      (lowerStr "AAPL".toList) = 0 := by decide
  have hr : relevanceAccum [⟨"Apple surges on strong earnings beat".toList, some []⟩]
      (lowerStr "AAPL".toList) = -10 := by decide
  have hs2 : sentimentAccum [⟨"AAPL surges on strong earnings beat".toList, some []⟩]
      (lowerStr "AAPL".toList) = 35 := by decide
  have hr2 : relevanceAccum [⟨"AAPL surges on strong earnings beat".toList, some []⟩]
      (lowerStr "AAPL".toList) = 20 := by decide
  refine ⟨?_, hs2, hr2, ?_⟩
  · simp only [analyzeNewsSentiment, List.isEmpty_cons, hs, hr, List.length_cons,
      List.length_nil]
    norm_num [clampQ, jsRound, sentimentLabelColor]
  · simp only [analyzeNewsSentiment, List.isEmpty_cons, hs2, hr2, List.length_cons,
      List.length_nil]
    norm_num [clampQ, jsRound, sentimentLabelColor]

/-- C2 (counterexample) — a filing title containing both a sale token
("sale") and a purchase token ("buy") is typed SELL by the code, not
OTHER: the sale test is asked first and wins outright. -/
theorem c2_counterexample :
    titleIsSale "CEO reports sale of stock to buy options".toList = true
    ∧ titleIsPurchase "CEO reports sale of stock to buy options".toList = true
    ∧ inferTxType "CEO reports sale of stock to buy options".toList = TxType.SELL
    ∧ inferTxType "CEO reports sale of stock to buy options".toList ≠ TxType.OTHER := by
  decide

/-- C2 (amended) — the inferred type is SELL exactly when the title
contains a sale-indicating token (regardless of purchase tokens), BUY
exactly when it contains a purchase-indicating token and no sale token,
and OTHER exactly when it contains neither. -/
theorem c2_amended (title : List Char) :
    (inferTxType title = TxType.SELL ↔ titleIsSale title = true)
    ∧ (inferTxType title = TxType.BUY
        ↔ (titleIsSale title = false ∧ titleIsPurchase title = true))
    ∧ (inferTxType title = TxType.OTHER
        ↔ (titleIsSale title = false ∧ titleIsPurchase title = false)) := by
  unfold inferTxType
  cases hs : titleIsSale title <;> cases hp : titleIsPurchase title <;> simp

/-- C9 — each wordlist keyword is tested by substring containment once
per article, so the accumulator contribution of an article depends only on
which keywords occur, never on occurrence counts; and because "up" is a
listed moderate-positive word and "down" a listed moderate-negative one,
"upgrade" contributes +15 + 5 and "downgrade" −15 − 5; on a
ticker-matching article this makes `analyzeNewsSentiment` score
"AAPL upgrade" at clamp(50 + 20 + 20) = 90 and "AAPL downgrade" at
clamp(50 − 20 + 20) = 50. -/
theorem c9_keyword_once_and_overlap :
    (∀ t1 t2 : List Char,
      (∀ w ∈ strongPositive ++ strongNegative ++ moderatePositive ++ moderateNegative,
        hasSub t1 w = hasSub t2 w) →
      articleSentimentDelta t1 = articleSentimentDelta t2)
    ∧ articleSentimentDelta "aapl upgrade ".toList = 15 + 5
    ∧ articleSentimentDelta "aapl downgrade ".toList = -15 - 5
    ∧ (analyzeNewsSentiment [⟨"AAPL upgrade".toList, none⟩] "AAPL".toList).score = 90
    ∧ (analyzeNewsSentiment [⟨"AAPL downgrade".toList, none⟩] "AAPL".toList).score = 50 := by
  refine ⟨?_, by decide, by decide, ?_, ?_⟩
  · intro t1 t2 h
    unfold articleSentimentDelta
    have h1 := sumWeighted_congr t1 t2 15 strongPositive
      (fun w hw => h w (by simp [hw]))
    have h2 := sumWeighted_congr t1 t2 (-15) strongNegative
      (fun w hw => h w (by simp [hw]))
    have h3 := sumWeighted_congr t1 t2 5 moderatePositive
      (fun w hw => h w (by simp [hw]))
    have h4 := sumWeighted_congr t1 t2 (-5) moderateNegative
      (fun w hw => h w (by simp [hw]))
    rw [h1, h2, h3, h4]
  · have hs : sentimentAccum [⟨"AAPL upgrade".toList, none⟩]
        (lowerStr "AAPL".toList) = 20 := by decide
    have hr : relevanceAccum [⟨"AAPL upgrade".toList, none⟩]
        (lowerStr "AAPL".toList) = 20 := by decide
    simp only [analyzeNewsSentiment, List.isEmpty_cons, hs, hr, List.length_cons,
      List.length_nil]
    norm_num [clampQ, jsRound, sentimentLabelColor]
  · have hs : sentimentAccum [⟨"AAPL downgrade".toList, none⟩]
        (lowerStr "AAPL".toList) = -20 := by decide
    have hr : relevanceAccum [⟨"AAPL downgrade".toList, none⟩]
        (lowerStr "AAPL".toList) = 20 := by decide
    simp only [analyzeNewsSentiment, List.isEmpty_cons, hs, hr, List.length_cons,
      List.length_nil]
    norm_num [clampQ, jsRound, sentimentLabelColor]

/-- C9 (witness) — the congruence part applied at a concrete pair: an
article text repeating "beat" three times contributes exactly what a
single occurrence does. -/
theorem c9_witness :
    articleSentimentDelta "aapl beat beat beat ".toList
      = articleSentimentDelta "aapl beat ".toList :=
  c9_keyword_once_and_overlap.1 _ _ (by decide)

/-- C3 (counterexample) — a provider response containing one message
with no sentiment label yields a populated social-sentiment slice with
the defaulted 50/50 split, not an absent slice. -/
theorem c3_counterexample :
    socialSentimentSlice (some [⟨none⟩]) = some ⟨50, 50, 1, "Neutral".toList⟩
    ∧ socialSentimentSlice (some [⟨none⟩]) ≠ none := by
  decide

/-- C3 (amended) — whenever the provider returns a messages array the
slice is populated; if no message in the 20 considered carries a Bullish
or Bearish label, the slice holds the defaulted 50/50 snapshot, so a
defaulted split is not distinguishable from a computed 50/50 one.
Absence occurs only when the fetch fails or the payload has no messages
field (the `none` input). -/
theorem c3_amended (msgs : List StMessage)
    (h : ∀ m ∈ msgs.take 20,
      m.sentiment ≠ some bullishLabel ∧ m.sentiment ≠ some bearishLabel) :
    socialSentimentSlice (some msgs)
      = some ⟨50, 50, (msgs.take 20).length, "Neutral".toList⟩
    ∧ (socialSentimentSlice (some msgs)).isSome = true := by
  have hb : (msgs.take 20).countP (fun m => m.sentiment == some bullishLabel) = 0 := by
    rw [List.countP_eq_zero]
    intro m hm
    simp only [beq_iff_eq]
    exact (h m hm).1
  have hbe : (msgs.take 20).countP (fun m => m.sentiment == some bearishLabel) = 0 := by
    rw [List.countP_eq_zero]
    intro m hm
    simp only [beq_iff_eq]
    exact (h m hm).2
  have hmap : socialSentimentSlice (some msgs) = some (socialFromMessages msgs) := rfl
  constructor
  · rw [hmap]
    unfold socialFromMessages
    simp only [hb, hbe]
    norm_num
  · rfl

/-- C3 (witness) — the amended theorem at a concrete one-message input
whose sentiment label is present but neither Bullish nor Bearish. -/
theorem c3_witness :
    socialSentimentSlice (some [⟨some "Chart".toList⟩])
      = some ⟨50, 50, 1, "Neutral".toList⟩
    ∧ (socialSentimentSlice (some [⟨some "Chart".toList⟩])).isSome = true :=
  c3_amended [⟨some "Chart".toList⟩] (by decide)

/-- C4 (counterexample) — on the crypto path a domain-restricted query
returning zero articles triggers no second query: the issued query list
is exactly the single domain-restricted query and never contains the
broader keyword query. -/
theorem c4_counterexample :
    (cryptoFetchNews (fun _ => some [])).1 = [NewsQuery.domainRestricted]
    ∧ NewsQuery.broadKeyword ∉ (cryptoFetchNews (fun _ => some [])).1 := by
  decide

/-- C4 (amended) — only the equity path runs the broader keyword
fallback when the domain-restricted query yields no articles; the crypto
path always issues exactly the single domain-restricted query. -/
theorem c4_amended (provider : NewsQuery → Option (List Article))
    (ticker companyName : List Char) :
    (respHasArticles (provider NewsQuery.domainRestricted) = false →
      (equityFetchNews provider ticker companyName).1
        = [NewsQuery.domainRestricted, NewsQuery.broadKeyword])
    ∧ (cryptoFetchNews provider).1 = [NewsQuery.domainRestricted] := by
  constructor
  · intro h
    simp only [equityFetchNews, h, Bool.false_eq_true, if_false]
    split <;> rfl
  · simp only [cryptoFetchNews]
    split <;> rfl

/-- C4 (witness) — the amended theorem at the concrete provider that
returns no response for every query. -/
theorem c4_witness :
    (equityFetchNews (fun _ => none) "AAPL".toList "Apple".toList).1
      = [NewsQuery.domainRestricted, NewsQuery.broadKeyword]
    ∧ (cryptoFetchNews (fun _ => none)).1 = [NewsQuery.domainRestricted] :=
  ⟨(c4_amended (fun _ => none) "AAPL".toList "Apple".toList).1 rfl,
    (c4_amended (fun _ => none) "AAPL".toList "Apple".toList).2⟩

/-- C7 — on any text where the section regex finds no match and the
numeric-prefix split yields fewer non-empty parts than the expected title
count of the prompt variant (4 for the crypto single-mode parser, 3 for
each equity dual-mode parser), the parser returns the empty section list;
it never throws, being a total function by construction. -/
theorem c7_section_fallback (text : List Char)
    (hregex : sectionMatches text = []) :
    ((cleanParts text).length < 4 → cryptoParseSections text = [])
    ∧ ((cleanParts text).length < 3 → parseSimplifiedSections text = [])
    ∧ ((cleanParts text).length < 3 → parseDetailedSections text = []) := by
  have hc : cryptoExpectedTitles.length = 4 := by decide
  have hsi : simplifiedExpectedTitles.length = 3 := by decide
  have hd : detailedExpectedTitles.length = 3 := by decide
  refine ⟨?_, ?_, ?_⟩ <;> intro hn
  · simp only [cryptoParseSections, parseSectionsWith, hregex, List.isEmpty_nil,
      if_true, hc]
    rw [if_neg (by omega)]
  · simp only [parseSimplifiedSections, parseSectionsWith, hregex, List.isEmpty_nil,
      if_true, hsi]
    rw [if_neg (by omega)]
  · simp only [parseDetailedSections, parseSectionsWith, hregex, List.isEmpty_nil,
      if_true, hd]
    rw [if_neg (by omega)]

/-- C7 (witness) — the theorem at a concrete text with no numbered
section titles and a single non-empty split part. -/
theorem c7_witness :
    cryptoParseSections "plain narrative with no numbering".toList = []
    ∧ parseSimplifiedSections "plain narrative with no numbering".toList = []
    ∧ parseDetailedSections "plain narrative with no numbering".toList = [] := by
  have h := c7_section_fallback "plain narrative with no numbering".toList (by decide)
  exact ⟨h.1 (by decide), h.2.1 (by decide), h.2.2 (by decide)⟩

/-- C8 — on both the equity path (after the relevance filter) and the
crypto path, the surfaced news list has length at most 3, for every
provider response. -/
theorem c8_news_cap (provider : NewsQuery → Option (List Article))
    (ticker companyName : List Char) :
    (equityFetchNews provider ticker companyName).2.length ≤ 3
    ∧ (cryptoFetchNews provider).2.length ≤ 3 := by
  constructor
  · simp only [equityFetchNews]
    split
    · simp
    · split
      · simp
      · simp
  · simp only [cryptoFetchNews]
    split
    · simp
    · simp
